import Mathlib

/-! Verification of the clapp interactive prompt engine.

This file gives a shallow embedding of the interactive prompt engine of the
`@stacksjs/clapp` repository (the event-driven state machine behind the
Text / Password / Confirm / Select / MultiSelect / GroupMultiSelect prompts)
and proves the testable properties stated in the specification.

The repository ships the `TextPrompt` subclass (`src/core/prompts/text.ts`)
and the `ConfirmPrompt` subclass, together with an extensive test suite for
the whole prompt family, but the base `Prompt` class and the list-prompt
subclasses are not part of the source tree that was provided.  Definitions
for those missing parts are modelled from the specification (each such
definition carries a doc comment saying so); definitions for the parts that
are present (`TextPrompt.valueWithCursor`, the finalize handler,
`ConfirmPrompt`, the cursor escape codes) are translated from the source.
-/

namespace Clapp

/-- Modelled from the spec: the lifecycle states of a prompt
(`initial → active → (validate loop) → submit | cancel | error`); the base
`Prompt` class is missing from the provided sources. -/
inductive PromptState where
  | initial
  | active
  | error
  | submit
  | cancel
deriving DecidableEq, Repr

/-- Modelled from the spec: `submit` and `cancel` are the terminal states. -/
def PromptState.isTerminal : PromptState → Bool
  | .submit => true
  | .cancel => true
  | _ => false

/-- Modelled from the spec: the closed vocabulary of normalized key names
produced by the key decoder (`up, down, left, right, return, escape, tab,
space, backspace, delete, ctrl-c, <printable character>`).  The decoder
itself is missing from the provided sources. -/
inductive Key where
  | up
  | down
  | left
  | right
  | ret
  | escape
  | tab
  | space
  | backspace
  | delete
  | ctrlC
  | char (c : Char)
deriving DecidableEq, Repr

/-- Modelled from the spec: an input event seen by the engine is either a
decoded keypress or the firing of the external abort signal. -/
inductive Event where
  | key (k : Key)
  | abort
deriving DecidableEq, Repr

/-- Modelled from the spec: an event is a cancel trigger when it is ctrl-c,
the escape-bound cancel action, or the abort signal firing. -/
def isCancelEvent : Event → Bool
  | .abort => true
  | .key .ctrlC => true
  | .key .escape => true
  | _ => false

/-- Modelled from the spec: a prompt session resolves either with a typed
value or with the unique, identity-comparable cancel sentinel
(`isCancel` tests for that exact sentinel).  The `isCancel` utility is
missing from the provided sources. -/
inductive PromptResult (α : Type) where
  | value (v : α)
  | cancelMarker
deriving DecidableEq, Repr

/-- Modelled from the spec: `isCancel(value)` returns true iff `value` is
the exact cancel sentinel, never by a string or structural match. -/
def isCancel {α : Type} : PromptResult α → Bool
  | .cancelMarker => true
  | .value _ => false

/-- Cursor-hide escape code, from `cursor.hide` in `src/utils.ts`
(`` `${CSI}?25l` `` with `CSI = ESC + '['`). -/
def cursorHide : String := "\x1b[?25l"

/-- Cursor-show escape code, from `cursor.show` in `src/utils.ts`. -/
def cursorShow : String := "\x1b[?25h"

/-! ## The text prompt machine

The base `Prompt` class (with raw value tracking, as used by `TextPrompt`)
is modelled from the event-precedence list of the spec; the finalize handler and
`valueWithCursor` getter come from `src/core/prompts/text.ts`. -/

/-- Construction options of a text prompt: `initialValue`, `placeholder`,
`defaultValue` and `validate`, as in `PromptOptions` / `TextOptions`.
A validator returns `none` for a valid value and `some message` otherwise
(a returned `Error` is shown using its message text). -/
structure TextConfig where
  initialValue : Option String := none
  placeholder : Option String := none
  defaultValue : Option String := none
  validate : Option (String → Option String) := none

/-- Runtime state of a text prompt: lifecycle state, accumulated value
(as a list of characters), caret offset `_cursor`, and the last validation
message. -/
structure TextState where
  state : PromptState
  value : List Char
  cursorPos : Nat
  error : String
deriving Repr

/-- Runs the configured validator against the current value. -/
def runValidate (cfg : TextConfig) (v : List Char) : Option String :=
  match cfg.validate with
  | none => none
  | some f => f (String.mk v)

/-- The finalize handler of `TextPrompt` (`src/core/prompts/text.ts`):
if the value is empty when the prompt finalizes, substitute the
`defaultValue`. -/
def finalizeText (cfg : TextConfig) (v : List Char) : List Char :=
  if v = [] then
    match cfg.defaultValue with
    | some d => d.toList
    | none => v
  else v

/-- Inserts a character at the caret position of the accumulated value. -/
def insertAt (v : List Char) (i : Nat) (c : Char) : List Char :=
  v.take i ++ c :: v.drop i

/-- Modelled from the spec: one keypress of the base `Prompt` engine in
tracking mode (as used by `TextPrompt`), following the event precedence of
the spec: terminal states ignore further events; ctrl-c / escape / the
abort signal cancel; `return` validates and then finalizes and submits;
`tab` applies the placeholder to an empty value; movement keys move the
caret; any printable character is inserted at the caret.  A failed
validation puts the prompt into the transient `error` state, which returns
to `active` (clearing the message) on the next keystroke. -/
def textStep (cfg : TextConfig) (s : TextState) (e : Event) : TextState :=
  if s.state.isTerminal then s
  else
    match e with
    | .abort => { s with state := .cancel }
    | .key .ctrlC => { s with state := .cancel }
    | .key .escape => { s with state := .cancel }
    | .key .ret =>
      match runValidate cfg s.value with
      | some msg => { s with state := .error, error := msg }
      | none =>
        { s with state := .submit
                 value := finalizeText cfg s.value
                 error := "" }
    | .key .tab =>
      match cfg.placeholder with
      | some p =>
        if s.value = [] then
          { s with state := .active
                   error := ""
                   value := p.toList
                   cursorPos := p.length }
        else
          { s with state := .active, error := "" }
      | none => { s with state := .active, error := "" }
    | .key .left =>
      { s with state := .active, error := "", cursorPos := s.cursorPos - 1 }
    | .key .right =>
      { s with state := .active
               error := ""
               cursorPos := min (s.cursorPos + 1) s.value.length }
    | .key .up => { s with state := .active, error := "" }
    | .key .down => { s with state := .active, error := "" }
    | .key .backspace =>
      { s with state := .active
               error := ""
               value := s.value.take (s.cursorPos - 1) ++ s.value.drop s.cursorPos
               cursorPos := s.cursorPos - 1 }
    | .key .delete =>
      { s with state := .active
               error := ""
               value := s.value.take s.cursorPos ++ s.value.drop (s.cursorPos + 1) }
    | .key .space =>
      { s with state := .active
               error := ""
               value := insertAt s.value s.cursorPos ' '
               cursorPos := s.cursorPos + 1 }
    | .key (.char c) =>
      { s with state := .active
               error := ""
               value := insertAt s.value s.cursorPos c
               cursorPos := s.cursorPos + 1 }

/-- The runtime state of a freshly constructed text prompt (before
`prompt()` is called): lifecycle state `initial`, value seeded from
`initialValue`, caret after the last character. -/
def initialText (cfg : TextConfig) : TextState :=
  { state := .initial
    value := (cfg.initialValue.getD "").toList
    cursorPos := (cfg.initialValue.getD "").toList.length
    error := "" }

/-- Modelled from the spec: `prompt()` begins the session.  If the supplied
cancellation signal is already aborted, it resolves immediately with the
cancel marker without rendering anything; otherwise it hides the cursor,
performs the first render (writing the frame produced by `render`) and
moves to the `active` state.  The second component lists the writes made to
the output sink. -/
def promptStartText (cfg : TextConfig) (alreadyAborted : Bool) (frame : String) :
    TextState × List String :=
  if alreadyAborted then ({ initialText cfg with state := .cancel }, [])
  else ({ initialText cfg with state := .active }, [cursorHide, frame])

/-- Folds a list of input events through the text machine. -/
def textRun (cfg : TextConfig) (s : TextState) (events : List Event) : TextState :=
  events.foldl (textStep cfg) s

/-- The resolution of the returned promise: the accumulated value on
`submit`, the cancel sentinel on `cancel`, and still pending otherwise. -/
def textResult (s : TextState) : Option (PromptResult String) :=
  match s.state with
  | .submit => some (.value (String.mk s.value))
  | .cancel => some .cancelMarker
  | _ => none

/-- A whole interactive session of a text prompt whose signal is not
aborted at start: begin the session, feed the events, read the promise. -/
def textSession (cfg : TextConfig) (events : List Event) : Option (PromptResult String) :=
  textResult (textRun cfg (promptStartText cfg false "").1 events)

/-! ## The `valueWithCursor` getter (from `src/core/prompts/text.ts`) -/

/-- The inverse-video decoration applied by the `color.inverse` helper of `picocolors`. -/
def inverse (s : String) : String := "\x1b[7m" ++ s ++ "\x1b[27m"

/-- The `valueWithCursor` getter of `TextPrompt`
(`src/core/prompts/text.ts`): the bare value once submitted; the value with
a block glyph appended when the caret sits at or beyond the end; otherwise
the value with the character under the caret rendered inverse. -/
def TextState.valueWithCursor (s : TextState) : String :=
  if s.state = .submit then String.mk s.value
  else if s.value.length ≤ s.cursorPos then String.mk s.value ++ "█"
  else
    String.mk (s.value.take s.cursorPos) ++
      inverse (String.mk ((s.value.drop s.cursorPos).take 1)) ++
      String.mk (s.value.drop (s.cursorPos + 1))

/-- Modelled from the spec: the default mask glyph of the password prompt. -/
def maskGlyph : Char := '•'

/-- Modelled from the spec: runtime state of a password prompt, identical
to a text prompt (the real value is retained internally); the
`PasswordPrompt` subclass is missing from the provided sources. -/
structure PasswordState where
  state : PromptState
  value : List Char
  cursorPos : Nat
deriving Repr

/-- Modelled from the spec: the masked display of a password prompt
substitutes each character of the real value with the mask glyph. -/
def PasswordState.masked (s : PasswordState) : List Char :=
  s.value.map (fun _ => maskGlyph)

/-- Modelled from the spec: the `valueWithCursor` getter of the password
prompt applies the same caret decoration as the text prompt, over the
masked display instead of the raw value. -/
def PasswordState.valueWithCursor (s : PasswordState) : String :=
  if s.state = .submit then String.mk s.masked
  else if s.masked.length ≤ s.cursorPos then String.mk s.masked ++ "█"
  else
    String.mk (s.masked.take s.cursorPos) ++
      inverse (String.mk ((s.masked.drop s.cursorPos).take 1)) ++
      String.mk (s.masked.drop (s.cursorPos + 1))

/-! ## The confirm prompt machine

The `ConfirmPrompt` subclass is present in the provided sources: its
`cursor` getter is `value ? 0 : 1`, its `confirm` handler sets the value
and immediately submits, and its `cursor`-event handler toggles the value.
The base engine it plugs into (which emits a boolean `confirm` event on
`y`/`n` and a `cursor` event on movement keys, including the vi-style
`h/j/k/l` aliases because `ConfirmPrompt` disables raw tracking) is
modelled from the spec. -/

/-- Runtime state of a confirm prompt: lifecycle state and boolean value. -/
structure ConfirmState where
  state : PromptState
  value : Bool
deriving DecidableEq, Repr

/-- The `cursor` getter of `ConfirmPrompt`: index 0 for the active ("yes")
choice, 1 for the inactive ("no") choice. -/
def ConfirmState.cursor (s : ConfirmState) : Nat :=
  if s.value then 0 else 1

/-- One keypress of the confirm prompt.  The dispatch of key names to
`confirm` / `cursor` events is modelled from the spec; the handlers (set
value and submit on `confirm`, toggle on `cursor`) are from the
`ConfirmPrompt` source. -/
def confirmStep (s : ConfirmState) (e : Event) : ConfirmState :=
  if s.state.isTerminal then s
  else
    match e with
    | .abort | .key .ctrlC | .key .escape => { s with state := .cancel }
    | .key .ret => { s with state := .submit }
    | .key (.char 'y') => { state := .submit, value := true }
    | .key (.char 'n') => { state := .submit, value := false }
    | .key .up | .key .down | .key .left | .key .right =>
      { s with state := .active, value := !s.value }
    | .key (.char 'h') | .key (.char 'j') | .key (.char 'k') | .key (.char 'l') =>
      { s with state := .active, value := !s.value }
    | _ => { s with state := .active }

/-- A freshly started confirm prompt (after the first render): active, with
the configured `initialValue` (defaulting to false, as `!!opts.initialValue`
in the `ConfirmPrompt` constructor). -/
def confirmStart (initialValue : Bool) : ConfirmState :=
  { state := .active, value := initialValue }

/-- Folds a list of input events through the confirm machine. -/
def confirmRun (s : ConfirmState) (events : List Event) : ConfirmState :=
  events.foldl confirmStep s

/-- The resolution of the promise returned by the confirm prompt. -/
def confirmResult (s : ConfirmState) : Option (PromptResult Bool) :=
  match s.state with
  | .submit => some (.value s.value)
  | .cancel => some .cancelMarker
  | _ => none

/-! ## The select prompt machine

The `SelectPrompt` subclass is missing from the provided sources; the
machine below is modelled from the spec: the cursor is the index into the
options array, `up`/`left` and `down`/`right` move it with wraparound, and
submission returns the option value at the cursor.  The engine addresses
options purely by index, so options are embedded as their values. -/

/-- Modelled from the spec: moving the list cursor up one step, wrapping
from index 0 to the last index of an option list of length `n`. -/
def wrapUp (n i : Nat) : Nat :=
  if i = 0 then n - 1 else i - 1

/-- Modelled from the spec: moving the list cursor down one step, wrapping
from the last index of an option list of length `n` back to 0. -/
def wrapDown (n i : Nat) : Nat :=
  if i + 1 < n then i + 1 else 0

/-- Runtime state of a select prompt: lifecycle state and cursor index. -/
structure SelectState where
  state : PromptState
  cursor : Nat
deriving DecidableEq, Repr

/-- Modelled from the spec: one keypress of the select prompt.  Cancel
triggers cancel, `return` submits the option at the cursor, movement keys
move the cursor with wraparound, anything else only clears the transient
`error` sub-state. -/
def selStep {α : Type} (options : List α) (s : SelectState) (e : Event) : SelectState :=
  if s.state.isTerminal then s
  else
    match e with
    | .abort | .key .ctrlC | .key .escape => { s with state := .cancel }
    | .key .ret => { s with state := .submit }
    | .key .up | .key .left =>
      { s with state := .active, cursor := wrapUp options.length s.cursor }
    | .key .down | .key .right =>
      { s with state := .active, cursor := wrapDown options.length s.cursor }
    | _ => { s with state := .active }

/-- A freshly started select prompt: active, cursor at the first option. -/
def selStart : SelectState :=
  { state := .active, cursor := 0 }

/-- Folds a list of input events through the select machine. -/
def selRun {α : Type} (options : List α) (s : SelectState) (events : List Event) : SelectState :=
  events.foldl (selStep options) s

/-- The resolution of the promise returned by the select prompt: the option value at the
cursor on submit, the cancel sentinel on cancel. -/
def selResult {α : Type} (options : List α) (s : SelectState) : Option (PromptResult α) :=
  match s.state with
  | .submit => (options.get? s.cursor).map .value
  | .cancel => some .cancelMarker
  | _ => none

/-! ## The multiselect prompt machine

The `MultiSelectPrompt` subclass is missing from the provided sources; the
machine below is modelled from the spec: a set of selected indices, `space`
toggling membership at the cursor, movement with wraparound over the full
option list (the `maxItems` sliding window only bounds what is rendered),
`required` (default true) making an empty submission a validation failure,
and submission returning the selected values in option-declaration order. -/

/-- Modelled from the spec: construction options of a multiselect prompt.
Only the fields that affect the resolved value are embedded; `maxItems`
is carried to show that it does not affect cursor movement. -/
structure MSConfig (α : Type) where
  options : List α
  required : Bool := true
  maxItems : Option Nat := none

/-- Runtime state of a multiselect prompt: lifecycle state, cursor index,
the set of selected option indices, and the last validation message. -/
structure MSState where
  state : PromptState
  cursor : Nat
  selected : List Nat
  error : String
deriving Repr

/-- Toggles membership of index `i` in the selection. -/
def toggleIndex (sel : List Nat) (i : Nat) : List Nat :=
  if i ∈ sel then sel.erase i else i :: sel

/-- Modelled from the spec: the values of the selected options, walking the
option list in declaration order from index `offset` upward, so that the
resolved array ignores selection order. -/
def selectedValuesFrom {α : Type} (options : List α) (sel : List Nat) (offset : Nat) :
    List α :=
  match options with
  | [] => []
  | a :: rest =>
    (if offset ∈ sel then [a] else []) ++ selectedValuesFrom rest sel (offset + 1)

/-- The values of the selected options in option-declaration order. -/
def selectedValues {α : Type} (options : List α) (sel : List Nat) : List α :=
  selectedValuesFrom options sel 0

/-- Modelled from the spec: the validation message re-rendered when a
required multiselect is submitted with zero selections. -/
def msRequiredError : String := "Please select at least one option"

/-- Modelled from the spec: one keypress of the multiselect prompt.
`space` toggles the option at the cursor; `return` with `required` and an
empty selection is a validation failure that re-renders with an error;
movement wraps over the full option list regardless of `maxItems`. -/
def msStep {α : Type} (cfg : MSConfig α) (s : MSState) (e : Event) : MSState :=
  if s.state.isTerminal then s
  else
    match e with
    | .abort | .key .ctrlC | .key .escape => { s with state := .cancel }
    | .key .ret =>
      if cfg.required && s.selected.isEmpty then
        { s with state := .error, error := msRequiredError }
      else
        { s with state := .submit, error := "" }
    | .key .space =>
      { s with state := .active
               error := ""
               selected := toggleIndex s.selected s.cursor }
    | .key .up | .key .left =>
      { s with state := .active
               error := ""
               cursor := wrapUp cfg.options.length s.cursor }
    | .key .down | .key .right =>
      { s with state := .active
               error := ""
               cursor := wrapDown cfg.options.length s.cursor }
    | _ => { s with state := .active, error := "" }

/-- A freshly started multiselect prompt: active, cursor at the first
option, nothing selected. -/
def msStart : MSState :=
  { state := .active, cursor := 0, selected := [], error := "" }

/-- Folds a list of input events through the multiselect machine. -/
def msRun {α : Type} (cfg : MSConfig α) (s : MSState) (events : List Event) : MSState :=
  events.foldl (msStep cfg) s

/-- The resolution of the promise returned by the multiselect prompt: the ordered array
of selected values on submit, the cancel sentinel on cancel. -/
def msResult {α : Type} (cfg : MSConfig α) (s : MSState) : Option (PromptResult (List α)) :=
  match s.state with
  | .submit => some (.value (selectedValues cfg.options s.selected))
  | .cancel => some .cancelMarker
  | _ => none

/-- A whole interactive session of a multiselect prompt. -/
def msSession {α : Type} (cfg : MSConfig α) (events : List Event) :
    Option (PromptResult (List α)) :=
  msResult cfg (msRun cfg msStart events)

/-! ## The group-multiselect prompt machine

The `GroupMultiSelectPrompt` subclass is missing from the provided sources;
the machine below is modelled from the spec: options are partitioned into
groups, each group header is itself a selectable node when
`selectableGroups` is true (the default), selecting a header toggles all
members of the group together, and submission returns the selected member
values in declaration order.  Members are addressed by the pair of their
group index and their index within the group. -/

/-- Modelled from the spec: a navigable entry of the flattened
group-multiselect list — a group header or the member `j` of group `g`. -/
inductive GMEntry where
  | header (g : Nat)
  | item (g : Nat) (j : Nat)
deriving DecidableEq, Repr

/-- Modelled from the spec: construction options of a group-multiselect
prompt; groups are embedded as the lists of their member values (group
labels do not affect the resolved value). -/
structure GMConfig (α : Type) where
  groups : List (List α)
  selectableGroups : Bool := true
  required : Bool := true

/-- The flattened entry list: for each group (from group index `g` upward)
its header, when groups are selectable, followed by its members. -/
def gmEntriesFrom {α : Type} (groups : List (List α)) (sg : Bool) (g : Nat) :
    List GMEntry :=
  match groups with
  | [] => []
  | ms :: rest =>
    (if sg then [GMEntry.header g] else []) ++
      (List.range ms.length).map (GMEntry.item g) ++
      gmEntriesFrom rest sg (g + 1)

/-- The navigable entries of a group-multiselect prompt. -/
def GMConfig.entries {α : Type} (cfg : GMConfig α) : List GMEntry :=
  gmEntriesFrom cfg.groups cfg.selectableGroups 0

/-- The member addresses of group `g` with `len` members. -/
def groupPairs (g len : Nat) : List (Nat × Nat) :=
  (List.range len).map (fun j => (g, j))

/-- Toggles membership of a member address in the selection. -/
def togglePair (sel : List (Nat × Nat)) (p : Nat × Nat) : List (Nat × Nat) :=
  if p ∈ sel then sel.erase p else p :: sel

/-- Modelled from the spec: toggling a group header toggles all its members
together — deselect them all when every member is selected, otherwise
select the ones still missing. -/
def toggleGroup (sel : List (Nat × Nat)) (g len : Nat) : List (Nat × Nat) :=
  if (groupPairs g len).all (fun p => p ∈ sel) then
    sel.filter (fun p => p ∉ groupPairs g len)
  else (groupPairs g len).filter (fun p => p ∉ sel) ++ sel

/-- The number of members of group `g`. -/
def groupLen {α : Type} (groups : List (List α)) (g : Nat) : Nat :=
  (groups.getD g []).length

/-- The selected values inside one group, walking the members in
declaration order (member index `j` upward in group `g`). -/
def memberValues {α : Type} (ms : List α) (sel : List (Nat × Nat)) (g j : Nat) :
    List α :=
  match ms with
  | [] => []
  | a :: rest =>
    (if (g, j) ∈ sel then [a] else []) ++ memberValues rest sel g (j + 1)

/-- Modelled from the spec: the resolved array of a group-multiselect
prompt — the selected member values, group by group and member by member in
declaration order, starting at group index `g`. -/
def gmSelectedFrom {α : Type} (groups : List (List α)) (sel : List (Nat × Nat))
    (g : Nat) : List α :=
  match groups with
  | [] => []
  | ms :: rest => memberValues ms sel g 0 ++ gmSelectedFrom rest sel (g + 1)

/-- The selected member values of a group-multiselect prompt, in
declaration order. -/
def gmSelected {α : Type} (groups : List (List α)) (sel : List (Nat × Nat)) : List α :=
  gmSelectedFrom groups sel 0

/-- Runtime state of a group-multiselect prompt. -/
structure GMState where
  state : PromptState
  cursor : Nat
  selected : List (Nat × Nat)
  error : String
deriving Repr

/-- Pressing `space`: toggle the entry under the cursor — a whole group for
a header entry, a single member for an item entry. -/
def gmToggleAt {α : Type} (cfg : GMConfig α) (s : GMState) : GMState :=
  match cfg.entries.get? s.cursor with
  | some (.header g) =>
    { s with selected := toggleGroup s.selected g (groupLen cfg.groups g) }
  | some (.item g j) =>
    { s with selected := togglePair s.selected (g, j) }
  | none => s

/-- Modelled from the spec: one keypress of the group-multiselect prompt,
with the same shell as the multiselect machine but navigating the
flattened entry list. -/
def gmStep {α : Type} (cfg : GMConfig α) (s : GMState) (e : Event) : GMState :=
  if s.state.isTerminal then s
  else
    match e with
    | .abort | .key .ctrlC | .key .escape => { s with state := .cancel }
    | .key .ret =>
      if cfg.required && s.selected.isEmpty then
        { s with state := .error, error := msRequiredError }
      else
        { s with state := .submit, error := "" }
    | .key .space =>
      { gmToggleAt cfg s with state := .active, error := "" }
    | .key .up | .key .left =>
      { s with state := .active
               error := ""
               cursor := wrapUp cfg.entries.length s.cursor }
    | .key .down | .key .right =>
      { s with state := .active
               error := ""
               cursor := wrapDown cfg.entries.length s.cursor }
    | _ => { s with state := .active, error := "" }

/-- A freshly started group-multiselect prompt. -/
def gmStart : GMState :=
  { state := .active, cursor := 0, selected := [], error := "" }

/-- Folds a list of input events through the group-multiselect machine. -/
def gmRun {α : Type} (cfg : GMConfig α) (s : GMState) (events : List Event) : GMState :=
  events.foldl (gmStep cfg) s

/-- The resolution of the promise returned by the group-multiselect prompt. -/
def gmResult {α : Type} (cfg : GMConfig α) (s : GMState) :
    Option (PromptResult (List α)) :=
  match s.state with
  | .submit => some (.value (gmSelected cfg.groups s.selected))
  | .cancel => some .cancelMarker
  | _ => none

/-- A whole interactive session of a group-multiselect prompt. -/
def gmSession {α : Type} (cfg : GMConfig α) (events : List Event) :
    Option (PromptResult (List α)) :=
  gmResult cfg (gmRun cfg gmStart events)

/-! ## Concrete fixtures used by the testable properties -/

/-- The twelve-option list of the sliding-window tests. -/
def optsTwelve : List String :=
  ["opt0", "opt1", "opt2", "opt3", "opt4", "opt5",
   "opt6", "opt7", "opt8", "opt9", "opt10", "opt11"]

/-- A multiselect over twelve options with a `maxItems = 6` sliding
window. -/
def cfgTwelve : MSConfig String :=
  { options := optsTwelve, maxItems := some 6 }

/-- The event sequence that selects the first `n` members of the first
group of a group-multiselect prompt one by one: starting from the group
header, repeat `n` times moving down one entry and toggling it. -/
def selectEachMember : Nat → List Event
  | 0 => []
  | n + 1 => selectEachMember n ++ [Event.key Key.down, Event.key Key.space]

/-! ## Helper lemmas -/

/-- In a non-terminal state, a keypress moves the text machine to `cancel`
exactly when the event is a cancel trigger. -/
theorem textStep_cancel_iff (cfg : TextConfig) (s : TextState) (e : Event)
    (h : s.state.isTerminal = false) :
    (textStep cfg s e).state = PromptState.cancel ↔ isCancelEvent e = true := by
  cases e with
  | abort => simp [textStep, h, isCancelEvent]
  | key k =>
    cases k <;> simp [textStep, h, isCancelEvent] <;>
      (try split) <;> (try split) <;> simp

/-- Terminal states absorb every further event: resolving twice is a
no-op. -/
theorem textStep_terminal (cfg : TextConfig) (s : TextState) (e : Event)
    (h : s.state.isTerminal = true) :
    textStep cfg s e = s := by
  simp [textStep, h]

/-- The promise of a text prompt resolves with the cancel sentinel exactly
when the session ended in the `cancel` state. -/
theorem textResult_cancel_iff (s : TextState) :
    textResult s = some PromptResult.cancelMarker ↔ s.state = PromptState.cancel := by
  cases h : s.state <;> simp [textResult, h]

/-! ## The claims -/

/-- C2: `isCancel` on the resolved value is true iff the session ended by
ctrl-c, the escape-bound cancel action, or the abort signal (already
aborted at start or fired later); cancellation is signalled by resolving
with the unique sentinel (the machine is a total function into
`PromptResult`, it never throws), and `isCancel` matches only that exact
sentinel — in particular no resolved string value, not even one spelling a
cancel message, is ever recognised as cancelled. -/
theorem isCancel_iff_cancelled :
    (∀ (cfg : TextConfig) (s : TextState) (e : Event),
      s.state.isTerminal = false →
      ((textStep cfg s e).state = PromptState.cancel ↔ isCancelEvent e = true)) ∧
    (∀ (cfg : TextConfig) (s : TextState) (e : Event),
      s.state.isTerminal = true → textStep cfg s e = s) ∧
    (∀ s : TextState,
      (textResult s).map isCancel = some true ↔ s.state = PromptState.cancel) ∧
    (∀ v : String, isCancel (PromptResult.value v) = false) ∧
    (isCancel (PromptResult.cancelMarker : PromptResult String) = true) ∧
    (∀ (cfg : TextConfig) (frame : String),
      textResult (promptStartText cfg true frame).1 = some PromptResult.cancelMarker) := by
  refine ⟨textStep_cancel_iff, textStep_terminal, ?_, ?_, ?_, ?_⟩
  · intro s
    cases h : s.state <;> simp [textResult, h, isCancel]
  · intro v
    rfl
  · rfl
  · intro cfg frame
    rfl

/-- Witness for C2 at concrete inputs: a ctrl-c keypress from the fresh
active state cancels, and a plain `x` keypress does not. -/
theorem isCancel_iff_cancelled_witness :
    ((textStep {} { state := .active, value := [], cursorPos := 0, error := "" }
        (.key .ctrlC)).state = PromptState.cancel ↔ true = true) ∧
    ((textStep {} { state := .active, value := [], cursorPos := 0, error := "" }
        (.key (.char 'x'))).state = PromptState.cancel ↔ false = true) ∧
    textStep {} { state := .submit, value := ['x'], cursorPos := 1, error := "" }
        (.key (.char 'y')) =
      { state := .submit, value := ['x'], cursorPos := 1, error := "" } :=
  ⟨isCancel_iff_cancelled.1 {} _ _ (by decide),
   isCancel_iff_cancelled.1 {} _ _ (by decide),
   isCancel_iff_cancelled.2.1 {} _ _ (by decide)⟩

/-- C9: with a cancellation signal already aborted when `prompt()` is
called, the session is immediately in the `cancel` state, the promise
resolves with the cancel marker, and nothing is written to the output sink
(in particular no frame is rendered, whereas a normal start hides the
cursor and writes the first frame); an abort signal firing later has
exactly the effect of a ctrl-c keypress. -/
theorem aborted_signal_cancels_without_render :
    (∀ (cfg : TextConfig) (frame : String),
      (promptStartText cfg true frame).1.state = PromptState.cancel ∧
      textResult (promptStartText cfg true frame).1 = some PromptResult.cancelMarker ∧
      (promptStartText cfg true frame).2 = []) ∧
    (∀ (cfg : TextConfig) (frame : String),
      (promptStartText cfg false frame).2 = [cursorHide, frame]) ∧
    (∀ (cfg : TextConfig) (s : TextState),
      textStep cfg s Event.abort = textStep cfg s (Event.key Key.ctrlC)) := by
  refine ⟨fun cfg frame => ⟨rfl, rfl, rfl⟩, fun cfg frame => rfl, fun cfg s => ?_⟩
  by_cases h : s.state.isTerminal <;> simp [textStep, h]

/-- C10: the `valueWithCursor` getter is state-dependent.  Once the state
is `submit` it returns the bare value (for the password prompt, its masked
display) with no caret decoration; while not submitted it appends the
block glyph '█' when the caret sits at or beyond the end of the value, and
otherwise renders the character under the caret inverse between the
untouched prefix and suffix. -/
theorem valueWithCursor_state_dependent :
    (∀ s : TextState, s.state = PromptState.submit →
      s.valueWithCursor = String.mk s.value) ∧
    (∀ s : TextState, s.state ≠ PromptState.submit → s.value.length ≤ s.cursorPos →
      s.valueWithCursor = String.mk s.value ++ "█") ∧
    (∀ (s : TextState) (h : s.cursorPos < s.value.length),
      s.state ≠ PromptState.submit →
      s.valueWithCursor =
        String.mk (s.value.take s.cursorPos) ++
          inverse (String.mk [s.value.get ⟨s.cursorPos, h⟩]) ++
          String.mk (s.value.drop (s.cursorPos + 1))) ∧
    (∀ s : PasswordState, s.state = PromptState.submit →
      s.valueWithCursor = String.mk s.masked) ∧
    (∀ s : PasswordState, s.state ≠ PromptState.submit → s.value.length ≤ s.cursorPos →
      s.valueWithCursor = String.mk s.masked ++ "█") ∧
    (∀ (s : PasswordState) (h : s.cursorPos < s.value.length),
      s.state ≠ PromptState.submit →
      s.valueWithCursor =
        String.mk (s.masked.take s.cursorPos) ++
          inverse (String.mk [s.masked.get ⟨s.cursorPos, by simpa [PasswordState.masked] using h⟩]) ++
          String.mk (s.masked.drop (s.cursorPos + 1))) := by
  have hmasklen : ∀ s : PasswordState, s.masked.length = s.value.length := by
    intro s
    simp [PasswordState.masked]
  refine ⟨?_, ?_, ?_, ?_, ?_, ?_⟩
  · intro s h
    simp [TextState.valueWithCursor, h]
  · intro s h hle
    simp [TextState.valueWithCursor, h, hle]
  · intro s h hne
    rw [TextState.valueWithCursor, if_neg hne, if_neg (by omega),
      List.take_one_drop_eq_of_lt_length h]
  · intro s h
    simp [PasswordState.valueWithCursor, h]
  · intro s h hle
    simp [PasswordState.valueWithCursor, h, hmasklen, hle]
  · intro s h hne
    rw [PasswordState.valueWithCursor, if_neg hne,
      if_neg (by rw [hmasklen]; omega),
      List.take_one_drop_eq_of_lt_length (by rw [hmasklen]; exact h)]

/-- Witness for C10: the `fo‹inverse o›` and `foo█` shapes of the tests,
plus the bare submitted value. -/
theorem valueWithCursor_state_dependent_witness :
    TextState.valueWithCursor { state := .submit, value := ['x'], cursorPos := 1, error := "" } =
      String.mk ['x'] ∧
    TextState.valueWithCursor { state := .active, value := ['f', 'o', 'o'], cursorPos := 3, error := "" } =
      String.mk ['f', 'o', 'o'] ++ "█" ∧
    TextState.valueWithCursor { state := .active, value := ['f', 'o', 'o'], cursorPos := 2, error := "" } =
      String.mk (['f', 'o', 'o'].take 2) ++
        inverse (String.mk [['f', 'o', 'o'].get ⟨2, by decide⟩]) ++
        String.mk (['f', 'o', 'o'].drop 3) :=
  ⟨valueWithCursor_state_dependent.1 _ rfl,
   valueWithCursor_state_dependent.2.1 _ (by decide) (by decide),
   valueWithCursor_state_dependent.2.2.1
     { state := .active, value := ['f', 'o', 'o'], cursorPos := 2, error := "" }
     (by decide) (by decide)⟩

/-- Splitting a run of the machine over concatenated event lists. -/
theorem textRun_append (cfg : TextConfig) (s : TextState) (es fs : List Event) :
    textRun cfg s (es ++ fs) = textRun cfg (textRun cfg s es) fs :=
  List.foldl_append _ _ _ _

/-- Feeding printable characters to an active text prompt whose caret sits
at the end of the value appends them, keeps the prompt active and keeps
the caret at the end. -/
theorem textRun_chars (cfg : TextConfig) (cs : List Char) (s : TextState)
    (h1 : s.state = PromptState.active) (h2 : s.cursorPos = s.value.length) :
    (textRun cfg s (cs.map (fun c => Event.key (Key.char c)))).state = PromptState.active ∧
    (textRun cfg s (cs.map (fun c => Event.key (Key.char c)))).value = s.value ++ cs ∧
    (textRun cfg s (cs.map (fun c => Event.key (Key.char c)))).cursorPos =
      s.value.length + cs.length := by
  induction cs generalizing s with
  | nil =>
    refine ⟨?_, ?_, ?_⟩ <;> simp [textRun, h1, h2]
  | cons c rest ih =>
    have hstep : textStep cfg s (Event.key (Key.char c)) =
        { state := .active, value := s.value ++ [c],
          cursorPos := s.value.length + 1, error := "" } := by
      simp [textStep, PromptState.isTerminal, h1, insertAt, h2]
    have hrun : textRun cfg s ((c :: rest).map (fun c => Event.key (Key.char c))) =
        textRun cfg (textStep cfg s (Event.key (Key.char c)))
          (rest.map (fun c => Event.key (Key.char c))) := rfl
    obtain ⟨ha, hb, hc⟩ :=
      ih { state := .active, value := s.value ++ [c],
           cursorPos := s.value.length + 1, error := "" } rfl (by simp)
    rw [hrun, hstep]
    refine ⟨ha, ?_, ?_⟩
    · rw [hb]
      simp
    · rw [hc]
      simp
      omega

/-- A session that types a character list and then presses return resolves
to whatever the finalize step leaves of that list, provided the validator
accepts it. -/
theorem textSession_chars_ret (cfg : TextConfig) (cs : List Char)
    (hinit : cfg.initialValue = none) (hval : runValidate cfg cs = none)
    (hfin : finalizeText cfg cs = cs) :
    textSession cfg (cs.map (fun c => Event.key (Key.char c)) ++ [Event.key Key.ret]) =
      some (PromptResult.value (String.mk cs)) := by
  unfold textSession
  have hstart : (promptStartText cfg false "").1 =
      { state := .active, value := [], cursorPos := 0, error := "" } := by
    simp [promptStartText, initialText, hinit]
  rw [hstart, textRun_append]
  obtain ⟨ha, hb, hc⟩ := textRun_chars cfg cs
    { state := .active, value := [], cursorPos := 0, error := "" } rfl rfl
  have hone : textRun cfg (textRun cfg { state := .active, value := [], cursorPos := 0, error := "" }
      (cs.map (fun c => Event.key (Key.char c)))) [Event.key Key.ret] =
      textStep cfg (textRun cfg { state := .active, value := [], cursorPos := 0, error := "" }
        (cs.map (fun c => Event.key (Key.char c)))) (Event.key Key.ret) := rfl
  rw [hone]
  simp at hb
  simp [textStep, textResult, PromptState.isTerminal, ha, hb, hval, hfin]

/-- C1: for every sequence of printable keystrokes followed by `return`,
with a validator that is absent or accepts the accumulated value, the
promise resolves to exactly the value accumulated at the moment of
submission (stated once for a prompt with no default value and once for a
non-empty keystroke sequence, where finalize leaves the value untouched);
in particular the keypresses `x`, `y`, `return` resolve to `"xy"`. -/
theorem text_resolves_accumulated :
    (∀ (cfg : TextConfig) (cs : List Char),
      cfg.initialValue = none → cfg.defaultValue = none →
      runValidate cfg cs = none →
      textSession cfg (cs.map (fun c => Event.key (Key.char c)) ++ [Event.key Key.ret]) =
        some (PromptResult.value (String.mk cs))) ∧
    (∀ (cfg : TextConfig) (cs : List Char),
      cfg.initialValue = none → runValidate cfg cs = none → cs ≠ [] →
      textSession cfg (cs.map (fun c => Event.key (Key.char c)) ++ [Event.key Key.ret]) =
        some (PromptResult.value (String.mk cs))) ∧
    textSession {} [Event.key (Key.char 'x'), Event.key (Key.char 'y'), Event.key Key.ret] =
      some (PromptResult.value "xy") := by
  refine ⟨?_, ?_, by decide⟩
  · intro cfg cs hinit hdef hval
    refine textSession_chars_ret cfg cs hinit hval ?_
    simp [finalizeText, hdef]
  · intro cfg cs hinit hval hne
    refine textSession_chars_ret cfg cs hinit hval ?_
    simp [finalizeText, hne]

/-- Witness for C1: the `x`, `y`, `return` session of the test suite. -/
theorem text_resolves_accumulated_witness :
    textSession {} (['x', 'y'].map (fun c => Event.key (Key.char c)) ++ [Event.key Key.ret]) =
      some (PromptResult.value (String.mk ['x', 'y'])) :=
  text_resolves_accumulated.1 {} ['x', 'y'] rfl rfl rfl

/-- C8: a text prompt with a `defaultValue` resolves to the default when
submitted with an empty accumulated value (the finalize handler fires),
and to the typed value — not the default — when any character was typed
before submitting. -/
theorem text_default_value :
    (∀ (cfg : TextConfig) (d : String),
      cfg.initialValue = none → cfg.defaultValue = some d → cfg.validate = none →
      textSession cfg [Event.key Key.ret] = some (PromptResult.value d)) ∧
    (∀ (cfg : TextConfig) (d : String) (cs : List Char),
      cfg.initialValue = none → cfg.defaultValue = some d → runValidate cfg cs = none →
      cs ≠ [] →
      textSession cfg (cs.map (fun c => Event.key (Key.char c)) ++ [Event.key Key.ret]) =
        some (PromptResult.value (String.mk cs))) := by
  constructor
  · intro cfg d hinit hdef hvalid
    unfold textSession
    have hstart : (promptStartText cfg false "").1 =
        { state := .active, value := [], cursorPos := 0, error := "" } := by
      simp [promptStartText, initialText, hinit]
    rw [hstart]
    show textResult (textStep cfg { state := .active, value := [], cursorPos := 0, error := "" }
      (Event.key Key.ret)) = some (PromptResult.value d)
    obtain ⟨data⟩ := d
    simp [textStep, textResult, PromptState.isTerminal, runValidate, hvalid,
      finalizeText, hdef]
  · intro cfg d cs hinit hdef hval hne
    refine textSession_chars_ret cfg cs hinit hval ?_
    simp [finalizeText, hne]

/-- Witness for C8: submitting empty input with default `"bleep"` resolves
to `"bleep"`; typing `x` first resolves to `"x"`. -/
theorem text_default_value_witness :
    textSession { defaultValue := some "bleep" } [Event.key Key.ret] =
      some (PromptResult.value "bleep") ∧
    textSession { defaultValue := some "bleep" }
        (['x'].map (fun c => Event.key (Key.char c)) ++ [Event.key Key.ret]) =
      some (PromptResult.value (String.mk ['x'])) :=
  ⟨text_default_value.1 { defaultValue := some "bleep" } "bleep" rfl rfl rfl,
   text_default_value.2 { defaultValue := some "bleep" } "bleep" ['x'] rfl rfl rfl
     (by decide)⟩

/-- C7: on a confirm prompt, `y` sets the value to true and immediately
submits (the state becomes `submit` and the promise resolves to true), `n`
sets it to false and immediately submits; the left and right movement keys
toggle the binary value while staying active; and the cursor getter
addresses the binary state as index 0 for the active ("yes") choice and 1
for the inactive ("no") choice. -/
theorem confirm_keys_and_cursor :
    (∀ s : ConfirmState, s.state.isTerminal = false →
      confirmStep s (Event.key (Key.char 'y')) = { state := .submit, value := true }) ∧
    (∀ s : ConfirmState, s.state.isTerminal = false →
      confirmStep s (Event.key (Key.char 'n')) = { state := .submit, value := false }) ∧
    (∀ b : Bool,
      confirmResult (confirmRun (confirmStart b) [Event.key (Key.char 'y')]) =
        some (PromptResult.value true)) ∧
    (∀ b : Bool,
      confirmResult (confirmRun (confirmStart b) [Event.key (Key.char 'n')]) =
        some (PromptResult.value false)) ∧
    (∀ s : ConfirmState, s.state.isTerminal = false →
      confirmStep s (Event.key Key.left) = { state := .active, value := !s.value } ∧
      confirmStep s (Event.key Key.right) = { state := .active, value := !s.value }) ∧
    (∀ s : ConfirmState, (s.cursor = 0 ↔ s.value = true) ∧ (s.cursor = 1 ↔ s.value = false)) := by
  refine ⟨?_, ?_, ?_, ?_, ?_, ?_⟩
  · intro s h
    simp [confirmStep, h]
  · intro s h
    simp [confirmStep, h]
  · intro b
    cases b <;> rfl
  · intro b
    cases b <;> rfl
  · intro s h
    constructor <;> simp [confirmStep, h]
  · intro s
    cases hv : s.value <;> simp [ConfirmState.cursor, hv]

/-- Witness for C7: pressing `y` from the fresh prompt started with
`initialValue = false` submits true. -/
theorem confirm_keys_and_cursor_witness :
    confirmStep { state := .active, value := false } (Event.key (Key.char 'y')) =
      { state := .submit, value := true } ∧
    confirmStep { state := .active, value := false } (Event.key (Key.char 'n')) =
      { state := .submit, value := false } ∧
    confirmStep { state := .active, value := false } (Event.key Key.left) =
      { state := .active, value := true } :=
  ⟨confirm_keys_and_cursor.1 _ (by decide),
   confirm_keys_and_cursor.2.1 _ (by decide),
   (confirm_keys_and_cursor.2.2.2.2.1 { state := .active, value := false } (by decide)).1⟩

/-- Selected-value extraction ignores indices below the walking offset. -/
theorem selectedValuesFrom_of_lt {α : Type} (options : List α) (sel : List Nat)
    (offset : Nat) (h : ∀ j ∈ sel, j < offset) :
    selectedValuesFrom options sel offset = [] := by
  induction options generalizing offset with
  | nil => rfl
  | cons a rest ih =>
    have h1 : offset ∉ sel := fun hm => absurd (h offset hm) (lt_irrefl offset)
    simp [selectedValuesFrom, h1]
    exact ih (offset + 1) (fun j hj => Nat.lt_succ_of_lt (h j hj))

/-- Extracting a single selected index yields the single option there. -/
theorem selectedValuesFrom_singleton {α : Type} (options : List α) (i offset : Nat)
    (h : i < options.length) :
    selectedValuesFrom options [offset + i] offset = [options.get ⟨i, h⟩] := by
  induction options generalizing i offset with
  | nil => simp at h
  | cons a rest ih =>
    cases i with
    | zero =>
      have hmem : offset ∈ [offset + 0] := by simp
      simp [selectedValuesFrom, hmem]
      exact selectedValuesFrom_of_lt rest _ _ (by
        intro j hj
        simp at hj
        omega)
    | succ k =>
      have hnot : offset ∉ [offset + (k + 1)] := by
        simp
      have hk : k < rest.length := by simpa using h
      have := ih k (offset + 1) hk
      simp [selectedValuesFrom, hnot]
      rw [show offset + (k + 1) = offset + 1 + k by omega]
      exact this

/-- The multiselect resolution with exactly one index selected. -/
theorem selectedValues_singleton {α : Type} (options : List α) (i : Nat)
    (h : i < options.length) :
    selectedValues options [i] = [options.get ⟨i, h⟩] := by
  have := selectedValuesFrom_singleton options i 0 h
  simpa [selectedValues] using this

/-- The resolved values are always a sublist of the declared options. -/
theorem selectedValuesFrom_sublist {α : Type} (options : List α) (sel : List Nat)
    (offset : Nat) :
    (selectedValuesFrom options sel offset).Sublist options := by
  induction options generalizing offset with
  | nil => simp [selectedValuesFrom]
  | cons a rest ih =>
    by_cases hmem : offset ∈ sel <;> simp [selectedValuesFrom, hmem]
    · exact ih (offset + 1)
    · exact (ih (offset + 1)).cons a

/-- C3: cursor movement of the list prompts wraps at both ends — `up` from
index 0 moves to the last index and `down` from the last index moves to 0,
for both the select and the multiselect machine; with options `[A, B, C]`
pressing `up` from 0 yields 2 and `down` from there yields 0; and the
wraparound is unaffected by an active `maxItems` sliding window, as the
12-option / `maxItems = 6` sessions show (one `up` then toggle selects
`opt11`, six `down`s then toggle selects `opt6`). -/
theorem list_cursor_wraps :
    (∀ (α : Type) (options : List α) (s : SelectState),
      s.state.isTerminal = false → options ≠ [] → s.cursor = 0 →
      (selStep options s (Event.key Key.up)).cursor = options.length - 1) ∧
    (∀ (α : Type) (options : List α) (s : SelectState),
      s.state.isTerminal = false → options ≠ [] → s.cursor = options.length - 1 →
      (selStep options s (Event.key Key.down)).cursor = 0) ∧
    (∀ (α : Type) (cfg : MSConfig α) (s : MSState),
      s.state.isTerminal = false → cfg.options ≠ [] → s.cursor = 0 →
      (msStep cfg s (Event.key Key.up)).cursor = cfg.options.length - 1) ∧
    (∀ (α : Type) (cfg : MSConfig α) (s : MSState),
      s.state.isTerminal = false → cfg.options ≠ [] → s.cursor = cfg.options.length - 1 →
      (msStep cfg s (Event.key Key.down)).cursor = 0) ∧
    (selRun ["A", "B", "C"] selStart [Event.key Key.up]).cursor = 2 ∧
    (selRun ["A", "B", "C"] selStart [Event.key Key.up, Event.key Key.down]).cursor = 0 ∧
    msSession cfgTwelve [Event.key Key.up, Event.key Key.space, Event.key Key.ret] =
      some (PromptResult.value ["opt11"]) ∧
    msSession cfgTwelve [Event.key Key.down, Event.key Key.down, Event.key Key.down,
        Event.key Key.down, Event.key Key.down, Event.key Key.down,
        Event.key Key.space, Event.key Key.ret] =
      some (PromptResult.value ["opt6"]) := by
  have hdown : ∀ n : Nat, wrapDown n (n - 1) = 0 := by
    intro n
    unfold wrapDown
    split <;> omega
  refine ⟨?_, ?_, ?_, ?_, by decide, by decide, by decide, by decide⟩
  · intro α options s h hne hc
    simp [selStep, h, hc, wrapUp]
  · intro α options s h hne hc
    simp [selStep, h, hc, hdown]
  · intro α cfg s h hne hc
    simp [msStep, h, hc, wrapUp]
  · intro α cfg s h hne hc
    simp [msStep, h, hc, hdown]

/-- Witness for C3: the wrap steps at the concrete three-option prompt. -/
theorem list_cursor_wraps_witness :
    (selStep ["A", "B", "C"] { state := .active, cursor := 0 } (Event.key Key.up)).cursor =
      ["A", "B", "C"].length - 1 ∧
    (selStep ["A", "B", "C"] { state := .active, cursor := 2 } (Event.key Key.down)).cursor = 0 ∧
    (msStep { options := ["A", "B", "C"] } { state := .active, cursor := 0, selected := [], error := "" }
        (Event.key Key.up)).cursor = ({ options := ["A", "B", "C"] } : MSConfig String).options.length - 1 ∧
    (msStep { options := ["A", "B", "C"] } { state := .active, cursor := 2, selected := [], error := "" }
        (Event.key Key.down)).cursor = 0 :=
  ⟨list_cursor_wraps.1 String ["A", "B", "C"] _ (by decide) (by decide) rfl,
   list_cursor_wraps.2.1 String ["A", "B", "C"] _ (by decide) (by decide) rfl,
   list_cursor_wraps.2.2.1 String { options := ["A", "B", "C"] } _ (by decide) (by decide) rfl,
   list_cursor_wraps.2.2.2.1 String { options := ["A", "B", "C"] } _ (by decide) (by decide) rfl⟩

/-- C4: a multiselect with `required` at its default (true) and zero
selections does not resolve on `return` — the machine enters the `error`
state carrying a non-empty validation message for the re-render and the
promise stays pending; once exactly one option is selected, `return`
submits and the promise resolves to the array holding exactly that
option value alone. -/
theorem multiselect_required_validation :
    (∀ (α : Type) (cfg : MSConfig α), cfg.required = true →
      (msRun cfg msStart [Event.key Key.ret]).state = PromptState.error ∧
      (msRun cfg msStart [Event.key Key.ret]).error = msRequiredError ∧
      msRequiredError ≠ "" ∧
      msResult cfg (msRun cfg msStart [Event.key Key.ret]) = none) ∧
    (∀ (α : Type) (cfg : MSConfig α) (s : MSState) (i : Nat)
      (h : i < cfg.options.length),
      s.state.isTerminal = false → s.selected = [i] →
      (msStep cfg s (Event.key Key.ret)).state = PromptState.submit ∧
      msResult cfg (msStep cfg s (Event.key Key.ret)) =
        some (PromptResult.value [cfg.options.get ⟨i, h⟩])) ∧
    msSession { options := ["opt0", "opt1"] }
        [Event.key Key.ret, Event.key Key.space, Event.key Key.ret] =
      some (PromptResult.value ["opt0"]) := by
  refine ⟨?_, ?_, by decide⟩
  · intro α cfg hreq
    refine ⟨?_, ?_, by decide, ?_⟩ <;>
      simp [msRun, msStep, msStart, msResult, PromptState.isTerminal, hreq]
  · intro α cfg s i h hterm hsel
    have hstep : msStep cfg s (Event.key Key.ret) = { s with state := .submit, error := "" } := by
      simp [msStep, hterm, hsel]
    rw [hstep]
    exact ⟨rfl, by simp [msResult, hsel, selectedValues_singleton cfg.options i h]⟩

/-- Witness for C4: the two-option session that first fails to submit and
then resolves to the single selected value. -/
theorem multiselect_required_validation_witness :
    (msRun { options := ["opt0", "opt1"] } msStart [Event.key Key.ret]).state =
      PromptState.error ∧
    msResult { options := ["opt0", "opt1"] }
        (msRun { options := ["opt0", "opt1"] } msStart [Event.key Key.ret]) = none ∧
    msResult { options := ["opt0", "opt1"] }
        (msStep { options := ["opt0", "opt1"] }
          { state := .active, cursor := 0, selected := [0], error := "" }
          (Event.key Key.ret)) =
      some (PromptResult.value [(["opt0", "opt1"] : List String).get ⟨0, by decide⟩]) :=
  ⟨(multiselect_required_validation.1 String { options := ["opt0", "opt1"] } rfl).1,
   (multiselect_required_validation.1 String { options := ["opt0", "opt1"] } rfl).2.2.2,
   (multiselect_required_validation.2.1 String { options := ["opt0", "opt1"] }
     { state := .active, cursor := 0, selected := [0], error := "" } 0 (by decide)
     (by decide) rfl).2⟩

/-- C6: whatever toggles and movements a session performs, a multiselect
that resolves with a value resolves with a sublist of the declared option
values — hence a subset taken in option-declaration order — and the
resolved array has no duplicates whenever the declared values are
pairwise distinct. -/
theorem multiselect_result_ordered_subset :
    ∀ (α : Type) (cfg : MSConfig α) (events : List Event) (vs : List α),
      msSession cfg events = some (PromptResult.value vs) →
      vs.Sublist cfg.options ∧ (cfg.options.Nodup → vs.Nodup) := by
  intro α cfg events vs h
  unfold msSession msResult at h
  cases hs : (msRun cfg msStart events).state <;> rw [hs] at h <;> simp at h
  have hsub : vs.Sublist cfg.options := by
    rw [← h]
    exact selectedValuesFrom_sublist cfg.options _ 0
  exact ⟨hsub, fun hnd => hsub.nodup hnd⟩

/-- Witness for C6: the session that selects the first of two options. -/
theorem multiselect_result_ordered_subset_witness :
    List.Sublist ["opt0"] ["opt0", "opt1"] ∧
      ((["opt0", "opt1"] : List String).Nodup → (["opt0"] : List String).Nodup) :=
  multiselect_result_ordered_subset String { options := ["opt0", "opt1"] }
    [Event.key Key.space, Event.key Key.ret] ["opt0"] (by decide)

/-! ## Lemmas for the group-multiselect prompt -/

/-- The resolved member values only depend on which member addresses are
selected, not on the order or multiplicity of the selection list. -/
theorem memberValues_congr {α : Type} (ms : List α) (sel1 sel2 : List (Nat × Nat))
    (g j : Nat) (h : ∀ p : Nat × Nat, p ∈ sel1 ↔ p ∈ sel2) :
    memberValues ms sel1 g j = memberValues ms sel2 g j := by
  induction ms generalizing j with
  | nil => rfl
  | cons a rest ih =>
    by_cases hp : (g, j) ∈ sel1
    · simp [memberValues, hp, (h _).mp hp]
      exact ih (j + 1)
    · have hx : (g, j) ∉ sel2 := fun hx => hp ((h _).mpr hx)
      simp [memberValues, hp, hx]
      exact ih (j + 1)

/-- The resolved array of a group-multiselect only depends on the
membership of the selection. -/
theorem gmSelectedFrom_congr {α : Type} (groups : List (List α))
    (sel1 sel2 : List (Nat × Nat)) (g : Nat)
    (h : ∀ p : Nat × Nat, p ∈ sel1 ↔ p ∈ sel2) :
    gmSelectedFrom groups sel1 g = gmSelectedFrom groups sel2 g := by
  induction groups generalizing g with
  | nil => rfl
  | cons ms rest ih =>
    simp [gmSelectedFrom, memberValues_congr ms sel1 sel2 g 0 h, ih (g + 1)]

/-- Toggling a group header on an empty selection selects exactly the
members of that group. -/
theorem toggleGroup_nil_mem (g len : Nat) (q : Nat × Nat) :
    q ∈ toggleGroup [] g len ↔ q ∈ groupPairs g len := by
  unfold toggleGroup
  split
  · rename_i hall
    have hnil : groupPairs g len = [] := by
      rw [List.eq_nil_iff_forall_not_mem]
      intro p hp
      have := List.all_eq_true.mp hall p hp
      simp at this
    simp [hnil]
  · simp [List.mem_filter]

/-- Folding the member toggle over pairwise-distinct fresh addresses
accumulates exactly those addresses. -/
theorem foldl_togglePair_mem (ps : List (Nat × Nat)) :
    ∀ acc : List (Nat × Nat), ps.Nodup → (∀ p ∈ ps, p ∉ acc) →
      ∀ q, q ∈ List.foldl togglePair acc ps ↔ q ∈ ps ∨ q ∈ acc := by
  induction ps with
  | nil =>
    intro acc _ _ q
    simp
  | cons p rest ih =>
    intro acc hnd hdisj q
    have hpacc : p ∉ acc := hdisj p (by simp)
    have hstep : togglePair acc p = p :: acc := by simp [togglePair, hpacc]
    rw [List.foldl_cons, hstep]
    have hnd2 : rest.Nodup := (List.nodup_cons.mp hnd).2
    have hpn : p ∉ rest := (List.nodup_cons.mp hnd).1
    have hdisj2 : ∀ r ∈ rest, r ∉ p :: acc := by
      intro r hr
      simp
      exact ⟨fun he => hpn (he ▸ hr), hdisj r (by simp [hr])⟩
    rw [ih (p :: acc) hnd2 hdisj2 q]
    simp
    tauto

/-- Member addresses of a group are pairwise distinct. -/
theorem groupPairs_nodup (g len : Nat) : (groupPairs g len).Nodup :=
  (List.nodup_range _).map (fun a b hab => by simpa using hab)

/-- The member addresses of a one-longer group. -/
theorem groupPairs_succ (g k : Nat) :
    groupPairs g (k + 1) = groupPairs g k ++ [(g, k)] := by
  simp [groupPairs, List.range_succ]

/-- Extracting a fully selected group returns all its members. -/
theorem memberValues_full {α : Type} (ms : List α) (sel : List (Nat × Nat)) (g j : Nat)
    (h : ∀ i, j ≤ i → i < j + ms.length → (g, i) ∈ sel) :
    memberValues ms sel g j = ms := by
  induction ms generalizing j with
  | nil => rfl
  | cons a rest ih =>
    have h0 : (g, j) ∈ sel := h j le_rfl (by simp)
    simp [memberValues, h0]
    exact ih (j + 1) (fun i h1 h2 => h i (by omega)
      (by simp only [List.length_cons]; omega))

/-- Splitting a run of the group-multiselect machine over concatenated
event lists. -/
theorem gmRun_append {α : Type} (cfg : GMConfig α) (s : GMState) (es fs : List Event) :
    gmRun cfg s (es ++ fs) = gmRun cfg (gmRun cfg s es) fs :=
  List.foldl_append _ _ _ _

/-- The flattened entries of a single selectable group. -/
theorem gm_entries_single {α : Type} (ms : List α) :
    (GMConfig.entries { groups := [ms] } : List GMEntry) =
      GMEntry.header 0 :: (List.range ms.length).map (GMEntry.item 0) := by
  simp [GMConfig.entries, gmEntriesFrom]

/-- Walking down and toggling the first `k` members of a single
selectable group, starting at the header, leaves the prompt active with
the cursor on the entry of member `k - 1` and exactly the first `k` member
addresses selected. -/
theorem gm_selectEach_run {α : Type} (ms : List α) (k : Nat) (hk : k ≤ ms.length) :
    gmRun { groups := [ms] } gmStart (selectEachMember k) =
      { state := .active, cursor := k, selected := (groupPairs 0 k).reverse, error := "" } := by
  induction k with
  | zero => rfl
  | succ k ih =>
    have hk2 : k ≤ ms.length := Nat.le_of_succ_le hk
    have hsplit : selectEachMember (k + 1) =
        selectEachMember k ++ [Event.key Key.down, Event.key Key.space] := rfl
    rw [hsplit, gmRun_append, ih hk2]
    have hlen : (GMConfig.entries { groups := [ms] } : List GMEntry).length =
        ms.length + 1 := by
      rw [gm_entries_single]
      simp
    have hdown : gmStep { groups := [ms] }
        { state := .active, cursor := k, selected := (groupPairs 0 k).reverse, error := "" }
        (Event.key Key.down) =
        { state := .active, cursor := k + 1, selected := (groupPairs 0 k).reverse,
          error := "" } := by
      simp [gmStep, PromptState.isTerminal, wrapDown, hlen]
      omega
    have hget : (GMConfig.entries { groups := [ms] } : List GMEntry)[k + 1]? =
        some (GMEntry.item 0 k) := by
      rw [gm_entries_single]
      simp [List.getElem?_map, List.getElem?_range, Nat.lt_of_succ_le hk]
    have hnotmem : (0, k) ∉ groupPairs 0 k := by
      simp [groupPairs]
    have hspace : gmStep { groups := [ms] }
        { state := .active, cursor := k + 1, selected := (groupPairs 0 k).reverse,
          error := "" }
        (Event.key Key.space) =
        { state := .active, cursor := k + 1, selected := (groupPairs 0 (k + 1)).reverse,
          error := "" } := by
      simp [gmStep, PromptState.isTerminal, gmToggleAt, hget, togglePair, hnotmem,
        groupPairs_succ, List.reverse_append]
    show gmStep { groups := [ms] } (gmStep { groups := [ms] }
        { state := .active, cursor := k, selected := (groupPairs 0 k).reverse, error := "" }
        (Event.key Key.down)) (Event.key Key.space) = _
    rw [hdown, hspace]

/-- Selecting every member of a single group one by one and then pressing
return resolves the prompt to all member values in declaration order. -/
theorem gm_session_members {α : Type} (ms : List α) (hne : ms ≠ []) :
    gmSession { groups := [ms] } (selectEachMember ms.length ++ [Event.key Key.ret]) =
      some (PromptResult.value ms) := by
  unfold gmSession
  rw [gmRun_append, gm_selectEach_run ms ms.length le_rfl]
  have hpairs : ((groupPairs 0 ms.length).reverse).isEmpty = false := by
    cases hms : ms with
    | nil => exact absurd hms hne
    | cons a rest => simp [groupPairs, List.range_succ]
  have hmem : ∀ i, 0 ≤ i → i < 0 + ms.length → (0, i) ∈ (groupPairs 0 ms.length).reverse := by
    intro i h1 h2
    simp [groupPairs]
    omega
  simp [gmRun, gmStep, PromptState.isTerminal, hpairs, gmResult, gmSelected,
    gmSelectedFrom, memberValues_full ms _ 0 0 hmem]

/-- Selecting the group header of a single group and then pressing return
resolves the prompt to all member values in declaration order. -/
theorem gm_session_header {α : Type} (ms : List α) (hne : ms ≠ []) :
    gmSession { groups := [ms] } [Event.key Key.space, Event.key Key.ret] =
      some (PromptResult.value ms) := by
  unfold gmSession
  have hget : (GMConfig.entries { groups := [ms] } : List GMEntry)[0]? =
      some (GMEntry.header 0) := by
    rw [gm_entries_single]
    simp
  have hlen0 : groupLen [ms] 0 = ms.length := rfl
  have hspace : gmStep { groups := [ms] } gmStart (Event.key Key.space) =
      { state := .active, cursor := 0, selected := toggleGroup [] 0 ms.length,
        error := "" } := by
    simp [gmStep, PromptState.isTerminal, gmStart, gmToggleAt, hget, hlen0]
  have htg : ∀ q : Nat × Nat, q ∈ toggleGroup [] 0 ms.length ↔ q ∈ groupPairs 0 ms.length :=
    toggleGroup_nil_mem 0 ms.length
  have hpos : 0 < ms.length := List.length_pos.mpr hne
  have hmem0 : (0, 0) ∈ toggleGroup [] 0 ms.length := by
    rw [htg]
    simp [groupPairs]
    omega
  have hpairs : (toggleGroup [] 0 ms.length).isEmpty = false := by
    cases htgl : toggleGroup [] 0 ms.length with
    | nil => rw [htgl] at hmem0; simp at hmem0
    | cons p ps => rfl
  have hmem : ∀ i, 0 ≤ i → i < 0 + ms.length → (0, i) ∈ toggleGroup [] 0 ms.length := by
    intro i h1 h2
    rw [htg]
    simp [groupPairs]
    omega
  show gmResult { groups := [ms] }
      (gmStep { groups := [ms] } (gmStep { groups := [ms] } gmStart (Event.key Key.space))
        (Event.key Key.ret)) = some (PromptResult.value ms)
  rw [hspace]
  simp [gmStep, PromptState.isTerminal, hpairs, gmResult, gmSelected, gmSelectedFrom,
    memberValues_full ms _ 0 0 hmem]

/-- C5: on a group-multiselect with `selectableGroups` at its default
(true), selecting every individual member of a group resolves to the same
array as selecting the group header once: the member values of the group in
declaration order.  Stated for the selection algebra of an arbitrary
configuration (header toggle on an empty selection equals folding the
member toggles over the group) and for whole single-group sessions. -/
theorem group_header_equals_members :
    (∀ (α : Type) (groups : List (List α)) (g : Nat),
      gmSelected groups (toggleGroup [] g (groupLen groups g)) =
        gmSelected groups
          (List.foldl togglePair [] (groupPairs g (groupLen groups g)))) ∧
    (∀ (α : Type) (ms : List α), ms ≠ [] →
      gmSession { groups := [ms] } (selectEachMember ms.length ++ [Event.key Key.ret]) =
        gmSession { groups := [ms] } [Event.key Key.space, Event.key Key.ret] ∧
      gmSession { groups := [ms] } [Event.key Key.space, Event.key Key.ret] =
        some (PromptResult.value ms)) := by
  constructor
  · intro α groups g
    apply gmSelectedFrom_congr
    intro q
    rw [toggleGroup_nil_mem,
      foldl_togglePair_mem _ [] (groupPairs_nodup g _) (by simp) q]
    simp
  · intro α ms hne
    rw [gm_session_members ms hne, gm_session_header ms hne]
    exact ⟨rfl, rfl⟩

/-- Witness for C5: the two-member group of the test suite, selected
either way. -/
theorem group_header_equals_members_witness :
    gmSession { groups := [["group1value0", "group1value1"]] }
        (selectEachMember 2 ++ [Event.key Key.ret]) =
      gmSession { groups := [["group1value0", "group1value1"]] }
        [Event.key Key.space, Event.key Key.ret] ∧
    gmSession { groups := [["group1value0", "group1value1"]] }
        [Event.key Key.space, Event.key Key.ret] =
      some (PromptResult.value ["group1value0", "group1value1"]) :=
  group_header_equals_members.2 String ["group1value0", "group1value1"] (by decide)

end Clapp
